import Mathlib

/-!
Shallow embedding of angr src/angr/engines/light/engine.py
(SimEngineLight, SimEngineLightVEX, SimEngineLightAIL).

Modelling conventions:
- Python None / ints / AIL expression nodes flowing through the evaluators
  are modelled by the sum type PyVal; the "unknown" result of the spec is
  PyVal.none (the Python None value).
- Raised Python exceptions are modelled by Except PyErr; a raised
  NotImplementedError / TypeError / AttributeError / AssertionError aborts
  the computation exactly where the source raises.
- The per-instance mutable fields of the engine objects are records
  threaded explicitly; dict self.tmps is an association list with cons
  shadowing older entries, read through List.lookup.
- pyvex Binop expressions always carry exactly two arguments, so the Binop
  constructor holds two operand fields; likewise AIL BinaryOp nodes.
-/

namespace LightEngine

/-- Python exception values raised by the engine code. -/
inductive PyErr where
  | notImplemented (msg : String)
  | typeError (msg : String)
  | attributeError (msg : String)
  | assertionError
deriving DecidableEq

/-- Provenance tags of an AIL node (the **expr.tags kwargs dict). -/
abbrev Tags := List (String × Int)

mutual
/-- AIL expression nodes (ailment.Expr) reachable by the base engine.
Register is a node kind with no handler in the base class; Load is the
abstract memory-read capability. Operands of UnaryOp/BinaryOp are arbitrary
Python objects (PyVal), since reconstruction can place a plain int there. -/
inductive AILExpr where
  | Const (idx : Option Nat) (value : Int) (tags : Tags)
  | Tmp (idx : Option Nat) (tmp_idx : Nat) (tags : Tags)
  | Register (idx : Option Nat) (reg_offset : Nat) (tags : Tags)
  | Load (idx : Option Nat) (tags : Tags)
  | UnaryOp (idx : Option Nat) (op : String) (operand : PyVal) (tags : Tags)
  | BinaryOp (idx : Option Nat) (op : String) (operand0 : PyVal) (operand1 : PyVal) (tags : Tags)

/-- A Python value flowing through the evaluators: the None object,
an int, or an AIL expression node. -/
inductive PyVal where
  | none
  | num (n : Int)
  | node (e : AILExpr)
end

/-- Temp table self.tmps: dict from temp id to stored Python value. -/
abbrev Tmps := List (Nat × PyVal)

/-- pyvex expression nodes (pyvex.IRExpr) reachable by the base engine.
CCall stands for any expression type with no matching handler attribute. -/
inductive VEXExpr where
  | RdTmp (tmp : Nat)
  | Const (con : Int)
  | Get (offset : Nat)
  | Load (addr : VEXExpr)
  | CCall
  | Binop (op : String) (arg0 : VEXExpr) (arg1 : VEXExpr)
deriving DecidableEq

/-- pyvex statement nodes (pyvex.IRStmt) reachable by the base engine.
NoOp stands for any statement type with no matching handler attribute. -/
inductive VEXStmt where
  | IMark (addr : Nat) (len : Nat) (delta : Nat)
  | WrTmp (tmp : Nat) (data : VEXExpr)
  | Put (offset : Nat) (data : VEXExpr)
  | Store (addr : VEXExpr) (data : VEXExpr)
  | NoOp
deriving DecidableEq

/-- Is this statement an instruction marker? -/
def VEXStmt.isIMark : VEXStmt → Bool
  | .IMark _ _ _ => true
  | _ => false

/-- The IRSB held by a lifted block (block.vex). -/
structure IRSB where
  tyenv : Nat
  statements : List VEXStmt
deriving DecidableEq

/-- A dialect-A block: address plus its lifted IRSB. -/
structure VEXBlock where
  addr : Nat
  vex : IRSB
deriving DecidableEq

/-- AIL statement nodes (ailment.Stmt). Each carries its own instruction
address (stmt.ins_addr). Jump and Call are the abstract capabilities that
raise in the base class; Assignment, Store and ConditionalJump have no
handler attribute in the base class and hit the unsupported fallback. -/
inductive AILStmt where
  | Assignment (ins_addr : Nat)
  | Store (ins_addr : Nat)
  | Jump (ins_addr : Nat)
  | Call (ins_addr : Nat)
  | ConditionalJump (ins_addr : Nat)
deriving DecidableEq

/-- The instruction address carried by an AIL statement. -/
def AILStmt.insAddr : AILStmt → Nat
  | .Assignment a => a
  | .Store a => a
  | .Jump a => a
  | .Call a => a
  | .ConditionalJump a => a

/-- A dialect-B block: address plus its AIL statements. -/
structure AILBlock where
  addr : Nat
  statements : List AILStmt
deriving DecidableEq

/-- The state handed to process(); opaque beyond exposing state.arch. -/
structure SimState where
  arch : Nat
deriving DecidableEq

/-- CodeLocation(self.block.addr, self.stmt_idx, ins_addr=self.ins_addr).
Fields are optional because the engine fields they are read from start out
as Python None. -/
structure CodeLocation where
  block_addr : Option Nat
  stmt_idx : Option Nat
  ins_addr : Option Nat
deriving DecidableEq

/-- Python str.startswith, on the underlying character lists. -/
def startswith (s p : String) : Bool :=
  p.data.isPrefixOf s.data

/-- Python expr_0 + expr_1 on engine values: defined (no exception) exactly
when both operands are ints; ailment expression nodes and None define no
addition, so any other combination raises TypeError (modelled as none). -/
def pyAdd : PyVal → PyVal → Option Int
  | .num a, .num b => some (a + b)
  | _, _ => none

/-- Python expr_0 - expr_1; same domain as pyAdd. -/
def pySub : PyVal → PyVal → Option Int
  | .num a, .num b => some (a - b)
  | _, _ => none

/-- The two lines `if expr_0 is None: expr_0 = arg0` of the AIL Add/Sub
handlers: replace an unknown evaluation result by the original operand. -/
def substUnknown (r arg : PyVal) : PyVal :=
  match r with
  | .none => arg
  | _ => r

/-!
## Dialect A (SimEngineLightVEX) expression evaluation

_expr dispatches on the runtime type name of the expression node:
- RdTmp, Get, Load, Binop, Const have handler attributes;
- any other node type (CCall here) is logged as unsupported and yields None.
_handle_Binop recognizes opcode families by string prefix; the Add and Sub
handlers evaluate operands through _expr, short-circuit on None, and catch
TypeError from the arithmetic. The recursive evaluator below inlines the
handler bodies at the Binop branch (the named handler definitions follow,
with equivalence lemmas proved afterwards).
-/

def vex_expr (tmps : Option Tmps) : VEXExpr → Except PyErr PyVal
  | .RdTmp t =>
    match tmps with
    | Option.none => .error (.typeError "argument of type NoneType is not iterable")
    | Option.some tb =>
      match tb.lookup t with
      | Option.some v => .ok v
      | Option.none => .ok PyVal.none
  | .Const c => .ok (.num c)
  | .Get _ => .error (.notImplemented "Please implement the Get handler with your own logic.")
  | .Load _ => .error (.notImplemented "Please implement the Load handler with your own logic.")
  | .CCall => .ok PyVal.none
  | .Binop op a0 a1 =>
    if startswith op "Iop_Add" then
      match vex_expr tmps a0 with
      | .error e => .error e
      | .ok PyVal.none => .ok PyVal.none
      | .ok v0 =>
        match vex_expr tmps a1 with
        | .error e => .error e
        | .ok PyVal.none => .ok PyVal.none
        | .ok v1 =>
          .ok (match pyAdd v0 v1 with
               | Option.some n => PyVal.num n
               | Option.none => PyVal.none)
    else if startswith op "Iop_Sub" then
      match vex_expr tmps a0 with
      | .error e => .error e
      | .ok PyVal.none => .ok PyVal.none
      | .ok v0 =>
        match vex_expr tmps a1 with
        | .error e => .error e
        | .ok PyVal.none => .ok PyVal.none
        | .ok v1 =>
          .ok (match pySub v0 v1 with
               | Option.some n => PyVal.num n
               | Option.none => PyVal.none)
    else if startswith op "Const" then
      .error (.typeError "_handle_Const takes 2 positional arguments but 3 were given")
    else
      .ok PyVal.none

/-- _handle_Add: evaluate both operands through _expr, short-circuiting to
None when either evaluation is None; then try the arithmetic, degrading a
TypeError to None. -/
def vex_handle_Add (tmps : Option Tmps) (arg0 arg1 : VEXExpr) : Except PyErr PyVal :=
  match vex_expr tmps arg0 with
  | .error e => .error e
  | .ok PyVal.none => .ok PyVal.none
  | .ok v0 =>
    match vex_expr tmps arg1 with
    | .error e => .error e
    | .ok PyVal.none => .ok PyVal.none
    | .ok v1 =>
      .ok (match pyAdd v0 v1 with
           | Option.some n => PyVal.num n
           | Option.none => PyVal.none)

/-- _handle_Sub: same shape as _handle_Add with subtraction. -/
def vex_handle_Sub (tmps : Option Tmps) (arg0 arg1 : VEXExpr) : Except PyErr PyVal :=
  match vex_expr tmps arg0 with
  | .error e => .error e
  | .ok PyVal.none => .ok PyVal.none
  | .ok v0 =>
    match vex_expr tmps arg1 with
    | .error e => .error e
    | .ok PyVal.none => .ok PyVal.none
    | .ok v1 =>
      .ok (match pySub v0 v1 with
           | Option.some n => PyVal.num n
           | Option.none => PyVal.none)

/-- _handle_Binop: prefix dispatch over the opcode name. A Const-prefixed
opcode routes to _handle_Const, which takes a single operand, so unpacking
the two Binop arguments into it raises TypeError; any opcode outside the
three recognized families returns None. -/
def vex_handle_Binop (tmps : Option Tmps) (op : String) (arg0 arg1 : VEXExpr) :
    Except PyErr PyVal :=
  if startswith op "Iop_Add" then vex_handle_Add tmps arg0 arg1
  else if startswith op "Iop_Sub" then vex_handle_Sub tmps arg0 arg1
  else if startswith op "Const" then
    .error (.typeError "_handle_Const takes 2 positional arguments but 3 were given")
  else .ok PyVal.none

/-!
## Dialect B (SimEngineLightAIL) expression evaluation

_expr builds the handler name from the runtime type of the node:
- a plain int or the None object has no matching handler and is logged as
  unsupported, yielding None;
- Const, Tmp, Load, UnaryOp, BinaryOp have handler attributes; Register
  (and any other node kind) has none and yields None;
- _ail_handle_UnaryOp / _ail_handle_BinaryOp re-dispatch on the operator
  name; the base class defines no unary operator handler at all and exactly
  the binary operator handlers _ail_handle_Add and _ail_handle_Sub (operator
  strings naming non-operator methods are outside this model).
The recursive evaluator inlines the Add/Sub handler bodies at the BinaryOp
branch; the named handler definitions follow, with equivalence lemmas
proved afterwards.
-/

mutual
def ail_expr (tmps : Option Tmps) : PyVal → Except PyErr PyVal
  | .none => .ok PyVal.none
  | .num _ => .ok PyVal.none
  | .node e => ail_expr_node tmps e

def ail_expr_node (tmps : Option Tmps) : AILExpr → Except PyErr PyVal
  | .Const _ v _ => .ok (.num v)
  | .Tmp _ t _ =>
    match tmps with
    | Option.none => .error (.typeError "NoneType object is not subscriptable")
    | Option.some tb =>
      match tb.lookup t with
      | Option.some v => .ok v
      | Option.none => .ok PyVal.none
  | .Register _ _ _ => .ok PyVal.none
  | .Load _ _ => .error (.notImplemented "Please implement the Load handler with your own logic.")
  | .UnaryOp _ _ _ _ => .ok PyVal.none
  | .BinaryOp idx op a0 a1 tags =>
    if op = "Add" then
      match ail_expr tmps a0 with
      | .error e => .error e
      | .ok r0 =>
        match ail_expr tmps a1 with
        | .error e => .error e
        | .ok r1 =>
          match pyAdd (substUnknown r0 a0) (substUnknown r1 a1) with
          | Option.some n => .ok (.num n)
          | Option.none =>
            .ok (.node (.BinaryOp idx "Add" (substUnknown r0 a0) (substUnknown r1 a1) tags))
    else if op = "Sub" then
      match ail_expr tmps a0 with
      | .error e => .error e
      | .ok r0 =>
        match ail_expr tmps a1 with
        | .error e => .error e
        | .ok r1 =>
          match pySub (substUnknown r0 a0) (substUnknown r1 a1) with
          | Option.some n => .ok (.num n)
          | Option.none =>
            .ok (.node (.BinaryOp idx "Sub" (substUnknown r0 a0) (substUnknown r1 a1) tags))
    else .ok PyVal.none
end

/-- _ail_handle_Add: evaluate both operands; replace an unknown result by
the original operand expression; try the arithmetic; on TypeError,
reconstruct a BinaryOp node with the same operator, the two (possibly
partially folded) operands in original order, and the original tags. -/
def ail_handle_Add (tmps : Option Tmps) (idx : Option Nat) (arg0 arg1 : PyVal) (tags : Tags) :
    Except PyErr PyVal :=
  match ail_expr tmps arg0 with
  | .error e => .error e
  | .ok r0 =>
    match ail_expr tmps arg1 with
    | .error e => .error e
    | .ok r1 =>
      match pyAdd (substUnknown r0 arg0) (substUnknown r1 arg1) with
      | Option.some n => .ok (.num n)
      | Option.none =>
        .ok (.node (.BinaryOp idx "Add" (substUnknown r0 arg0) (substUnknown r1 arg1) tags))

/-- _ail_handle_Sub: same shape as _ail_handle_Add with subtraction. -/
def ail_handle_Sub (tmps : Option Tmps) (idx : Option Nat) (arg0 arg1 : PyVal) (tags : Tags) :
    Except PyErr PyVal :=
  match ail_expr tmps arg0 with
  | .error e => .error e
  | .ok r0 =>
    match ail_expr tmps arg1 with
    | .error e => .error e
    | .ok r1 =>
      match pySub (substUnknown r0 arg0) (substUnknown r1 arg1) with
      | Option.some n => .ok (.num n)
      | Option.none =>
        .ok (.node (.BinaryOp idx "Sub" (substUnknown r0 arg0) (substUnknown r1 arg1) tags))

/-!
## Engine context state and statement processing

The instance fields written by __init__ and mutated during _process are
threaded as explicit records. A fresh engine has every field bound to
Python None.
-/

/-- The mutable context fields of a SimEngineLightVEX instance. -/
structure VEXEngineState where
  state : Option SimState
  arch : Option Nat
  block : Option VEXBlock
  stmt_idx : Option Nat
  ins_addr : Option Nat
  tmps : Option Tmps
  tyenv : Option Nat

/-- A freshly constructed SimEngineLightVEX: every context field is None. -/
def vexFresh : VEXEngineState :=
  { state := Option.none, arch := Option.none, block := Option.none,
    stmt_idx := Option.none, ins_addr := Option.none,
    tmps := Option.none, tyenv := Option.none }

/-- The mutable context fields of a SimEngineLightAIL instance. -/
structure AILEngineState where
  state : Option SimState
  arch : Option Nat
  block : Option AILBlock
  stmt_idx : Option Nat
  ins_addr : Option Nat
  tmps : Option Tmps

/-- A freshly constructed SimEngineLightAIL: every context field is None. -/
def ailFresh : AILEngineState :=
  { state := Option.none, arch := Option.none, block := Option.none,
    stmt_idx := Option.none, ins_addr := Option.none, tmps := Option.none }

/-- _codeloc of the VEX walker, observed while self.block is bound; outside
an active call self.block is None (the real code would raise there, the
observer totalizes with none in the first field). -/
def vexCodeloc (eng : VEXEngineState) : CodeLocation :=
  { block_addr := eng.block.map VEXBlock.addr,
    stmt_idx := eng.stmt_idx, ins_addr := eng.ins_addr }

/-- _codeloc of the AIL walker. -/
def ailCodeloc (eng : AILEngineState) : CodeLocation :=
  { block_addr := eng.block.map AILBlock.addr,
    stmt_idx := eng.stmt_idx, ins_addr := eng.ins_addr }

/-- _handle_Stmt of the VEX walker: dispatch on the statement type name.
WrTmp, Put, Store have handler attributes; IMark, NoOp and every other
statement type are logged as unsupported and skipped. _handle_WrTmp stores
the evaluated data under the destination temp unless the evaluation is
None, in which case it returns without touching the table. -/
def vex_handle_Stmt (eng : VEXEngineState) : VEXStmt → Except PyErr VEXEngineState
  | .WrTmp t dataE =>
    match vex_expr eng.tmps dataE with
    | .error e => .error e
    | .ok PyVal.none => .ok eng
    | .ok v =>
      match eng.tmps with
      | Option.none => .error (.typeError "NoneType object does not support item assignment")
      | Option.some tb => .ok { eng with tmps := Option.some ((t, v) :: tb) }
  | .Put _ _ => .error (.notImplemented "Please implement the Put handler with your own logic.")
  | .Store _ _ => .error (.notImplemented "Please implement the Store handler with your own logic.")
  | .IMark _ _ _ => .ok eng
  | .NoOp => .ok eng

/-- The ins_addr update performed at the top of the VEX statement loop:
an IMark sets self.ins_addr to stmt.addr + stmt.delta, every other
statement leaves it unchanged. -/
def vexStepIns (ia : Option Nat) : VEXStmt → Option Nat
  | .IMark a _ d => some (a + d)
  | _ => ia

/-- The instruction address in effect while statement j of the list is
being handled, starting from instruction address ia. -/
def insAddrAt (ia : Option Nat) : List VEXStmt → Nat → Option Nat
  | [], _ => ia
  | s :: _, 0 => vexStepIns ia s
  | s :: r, j + 1 => insAddrAt (vexStepIns ia s) r j

/-- The base+delta values of the instruction markers of a statement list,
in order. -/
def markerVals : List VEXStmt → List Nat
  | [] => []
  | .IMark a _ d :: r => (a + d) :: markerVals r
  | _ :: r => markerVals r

/-- _process_Stmt of the VEX walker: enumerate the statements, set
self.stmt_idx, update self.ins_addr on an IMark, then dispatch the
statement. The middle component records the CodeLocation _codeloc() would
return while each statement is handled (the observable program point); a
raised exception aborts the loop, leaving the fields as they were at the
failing statement. -/
def vexLoop (eng : VEXEngineState) :
    List VEXStmt → Nat → VEXEngineState × List CodeLocation × Option PyErr
  | [], _ => (eng, [], Option.none)
  | stmt :: rest, idx =>
    let eng1 : VEXEngineState :=
      { eng with stmt_idx := some idx, ins_addr := vexStepIns eng.ins_addr stmt }
    let cl := vexCodeloc eng1
    match vex_handle_Stmt eng1 stmt with
    | .error e => (eng1, [cl], some e)
    | .ok eng2 =>
      let r := vexLoop eng2 rest (idx + 1)
      (r.1, cl :: r.2.1, r.2.2)

/-- process()/_process of the VEX walker: assert the block is present,
bind tmps/block/state/arch/tyenv, run the statement loop, and on normal
completion set self.stmt_idx and self.ins_addr back to None. An exception
escaping the loop leaves every field as it was. -/
def vex_process (eng : VEXEngineState) (st : SimState) (blockOpt : Option VEXBlock) :
    VEXEngineState × List CodeLocation × Option PyErr :=
  match blockOpt with
  | Option.none => (eng, [], some PyErr.assertionError)
  | Option.some block =>
    let eng1 : VEXEngineState :=
      { eng with tmps := some [], block := some block, state := some st,
                 arch := some st.arch, tyenv := some block.vex.tyenv }
    let r := vexLoop eng1 block.vex.statements 0
    match r.2.2 with
    | Option.none =>
      ({ r.1 with stmt_idx := Option.none, ins_addr := Option.none }, r.2.1, Option.none)
    | some e => (r.1, r.2.1, some e)

/-- _ail_handle_Stmt: dispatch on the statement type name. Jump and Call
have handler attributes that raise NotImplementedError; Assignment, Store,
ConditionalJump and every other statement type have no handler attribute
in the base class and are logged as unsupported and skipped. -/
def ail_handle_Stmt (eng : AILEngineState) : AILStmt → Except PyErr AILEngineState
  | .Jump _ => .error (.notImplemented "Please implement the Jump handler with your own logic.")
  | .Call _ => .error (.notImplemented "Please implement the Call handler with your own logic.")
  | .Assignment _ => .ok eng
  | .Store _ => .ok eng
  | .ConditionalJump _ => .ok eng

/-- _process_Stmt of the AIL walker: enumerate the statements, set
self.stmt_idx and self.ins_addr from the statement itself, then dispatch,
recording the CodeLocation in effect at each statement. -/
def ailLoop (eng : AILEngineState) :
    List AILStmt → Nat → AILEngineState × List CodeLocation × Option PyErr
  | [], _ => (eng, [], Option.none)
  | stmt :: rest, idx =>
    let eng1 : AILEngineState :=
      { eng with stmt_idx := some idx, ins_addr := some stmt.insAddr }
    let cl := ailCodeloc eng1
    match ail_handle_Stmt eng1 stmt with
    | .error e => (eng1, [cl], some e)
    | .ok eng2 =>
      let r := ailLoop eng2 rest (idx + 1)
      (r.1, cl :: r.2.1, r.2.2)

/-- process()/_process of the AIL walker: bind tmps/block/state/arch (no
assert here: a missing block raises AttributeError only when the loop
reads self.block.statements), run the loop, and on normal completion set
self.stmt_idx and self.ins_addr back to None. -/
def ail_process (eng : AILEngineState) (st : SimState) (blockOpt : Option AILBlock) :
    AILEngineState × List CodeLocation × Option PyErr :=
  let eng1 : AILEngineState :=
    { eng with tmps := some [], block := blockOpt, state := some st, arch := some st.arch }
  match blockOpt with
  | Option.none =>
    (eng1, [], some (PyErr.attributeError "NoneType object has no attribute statements"))
  | Option.some block =>
    let r := ailLoop eng1 block.statements 0
    match r.2.2 with
    | Option.none =>
      ({ r.1 with stmt_idx := Option.none, ins_addr := Option.none }, r.2.1, Option.none)
    | some e => (r.1, r.2.1, some e)

/-!
## Concrete sample inputs for witnesses and counterexamples
-/

/-- Whether the instruction addresses recorded in a code-location trace may
follow each other: an absent address precedes anything, a present address
never precedes an absent one, and present addresses compare by value. -/
def optLe : Option Nat → Option Nat → Bool
  | Option.none, _ => true
  | some _, Option.none => false
  | some a, some b => decide (a ≤ b)

/-- A block whose single statement writes the constant 5 into temp 0. -/
def blockC3 : VEXBlock := { addr := 0x400000, vex := { tyenv := 0, statements := [.WrTmp 0 (.Const 5)] } }

/-- A block with no statements. -/
def blockEmpty : VEXBlock := { addr := 0x400000, vex := { tyenv := 0, statements := [] } }

/-- The marker-reconstruction example of the claim:
[Marker(addr=0x1000, delta=0), S1, Marker(addr=0x1000, delta=4), S2]. -/
def stmtsC6 : List VEXStmt := [.IMark 0x1000 4 0, .NoOp, .IMark 0x1000 4 4, .NoOp]

/-- A block whose markers appear in decreasing address order. -/
def stmtsC8bad : List VEXStmt := [.IMark 4096 4 0, .NoOp, .IMark 1280 4 0, .NoOp]

/-- A block whose markers appear in increasing address order. -/
def stmtsC8good : List VEXStmt := [.IMark 4096 4 0, .NoOp, .IMark 4100 4 0, .NoOp]

/-- An AIL block with increasing per-statement instruction addresses. -/
def ailStmtsC8 : List AILStmt := [.Assignment 4096, .Store 4100]

/-- Statements whose leading statement precedes the first marker. -/
def stmtsC10 : List VEXStmt := [.NoOp, .IMark 4096 4 0, .NoOp]

/-- An engine whose temp table already holds a value for temp 0. -/
def engC9 : VEXEngineState := { vexFresh with tmps := some [(0, PyVal.num 5)] }

/-- A block whose leading statement precedes the first marker. -/
def blockC10 : VEXBlock := { addr := 0x500000, vex := { tyenv := 0, statements := stmtsC10 } }

/-- The context initialization performed at the top of the VEX _process:
bind a fresh temp table and the block/state/arch/tyenv call inputs (the
stmt_idx and ins_addr fields are carried over, not re-initialized). -/
def vexInit (eng : VEXEngineState) (st : SimState) (blk : VEXBlock) : VEXEngineState :=
  { eng with tmps := some [], block := some blk, state := some st,
             arch := some st.arch, tyenv := some blk.vex.tyenv }

/-- The context initialization performed at the top of the AIL _process. -/
def ailInit (eng : AILEngineState) (st : SimState) (blk : AILBlock) : AILEngineState :=
  { eng with tmps := some [], block := some blk, state := some st, arch := some st.arch }

/-- A block whose single statement reaches the unimplemented Put
capability, so processing it terminates early with an error. -/
def blockC3err : VEXBlock :=
  { addr := 0x400000, vex := { tyenv := 0, statements := [.Put 16 (.Const 1)] } }

/-- An AIL block whose single statement reaches the unimplemented Jump
capability. -/
def blockC3errAIL : AILBlock := { addr := 0x400000, statements := [.Jump 4096] }

/-!
## Theorems

Helper lemmas first, then one theorem per claim (with witnesses and
counterexamples where required).
-/

/-- The inlined Binop branch of the recursive evaluator agrees with the
named _handle_Binop / _handle_Add / _handle_Sub definitions. -/
theorem vex_expr_Binop (tmps : Option Tmps) (op : String) (a0 a1 : VEXExpr) :
    vex_expr tmps (.Binop op a0 a1) = vex_handle_Binop tmps op a0 a1 := by
  unfold vex_expr vex_handle_Binop vex_handle_Add vex_handle_Sub
  rfl

/-- The inlined BinaryOp branch of the recursive AIL evaluator agrees with
the named _ail_handle_Add / _ail_handle_Sub definitions, with the exact
operator-name dispatch of _ail_handle_BinaryOp. -/
theorem ail_expr_BinaryOp (tmps : Option Tmps) (idx : Option Nat) (op : String)
    (a0 a1 : PyVal) (tags : Tags) :
    ail_expr_node tmps (.BinaryOp idx op a0 a1 tags) =
      if op = "Add" then ail_handle_Add tmps idx a0 a1 tags
      else if op = "Sub" then ail_handle_Sub tmps idx a0 a1 tags
      else .ok PyVal.none := by
  unfold ail_expr_node ail_handle_Add ail_handle_Sub
  rfl

/-- Characterization of _ail_handle_Add once both operand evaluations have
returned: substitute originals for unknowns, fold if the arithmetic is
defined, otherwise rebuild the node. -/
theorem ail_handle_Add_eq (tmps : Option Tmps) (idx : Option Nat) (a0 a1 : PyVal)
    (tags : Tags) (r0 r1 : PyVal) (h0 : ail_expr tmps a0 = .ok r0)
    (h1 : ail_expr tmps a1 = .ok r1) :
    ail_handle_Add tmps idx a0 a1 tags =
      .ok (match pyAdd (substUnknown r0 a0) (substUnknown r1 a1) with
           | Option.some n => PyVal.num n
           | Option.none =>
             PyVal.node (.BinaryOp idx "Add" (substUnknown r0 a0) (substUnknown r1 a1) tags)) := by
  unfold ail_handle_Add
  rw [h0, h1]
  dsimp only
  cases pyAdd (substUnknown r0 a0) (substUnknown r1 a1) <;> rfl

/-- Characterization of _ail_handle_Sub, as for _ail_handle_Add. -/
theorem ail_handle_Sub_eq (tmps : Option Tmps) (idx : Option Nat) (a0 a1 : PyVal)
    (tags : Tags) (r0 r1 : PyVal) (h0 : ail_expr tmps a0 = .ok r0)
    (h1 : ail_expr tmps a1 = .ok r1) :
    ail_handle_Sub tmps idx a0 a1 tags =
      .ok (match pySub (substUnknown r0 a0) (substUnknown r1 a1) with
           | Option.some n => PyVal.num n
           | Option.none =>
             PyVal.node (.BinaryOp idx "Sub" (substUnknown r0 a0) (substUnknown r1 a1) tags)) := by
  unfold ail_handle_Sub
  rw [h0, h1]
  dsimp only
  cases pySub (substUnknown r0 a0) (substUnknown r1 a1) <;> rfl

/-- C1: in dialect B, the Add and Sub handlers never return unknown for an
arithmetic expression: when an operand evaluation is unknown the original
unevaluated operand is substituted in its place, and when the arithmetic
then fails with a type incompatibility the handler returns a newly built
BinaryOp node with the same operator, the two (possibly partially folded)
operands in original order, and the original provenance tags unchanged;
every normal return is a concrete value or a valid expression node. -/
theorem claim_C1 : ∀ (tmps : Option Tmps) (idx : Option Nat) (a0 a1 : PyVal) (tags : Tags),
    (∀ v, ail_handle_Add tmps idx a0 a1 tags = .ok v → v ≠ PyVal.none) ∧
    (∀ v, ail_handle_Sub tmps idx a0 a1 tags = .ok v → v ≠ PyVal.none) ∧
    (∀ r0 r1, ail_expr tmps a0 = .ok r0 → ail_expr tmps a1 = .ok r1 →
      ail_handle_Add tmps idx a0 a1 tags =
        .ok (match pyAdd (substUnknown r0 a0) (substUnknown r1 a1) with
             | Option.some n => PyVal.num n
             | Option.none =>
               PyVal.node (.BinaryOp idx "Add" (substUnknown r0 a0) (substUnknown r1 a1) tags))) ∧
    (∀ r0 r1, ail_expr tmps a0 = .ok r0 → ail_expr tmps a1 = .ok r1 →
      ail_handle_Sub tmps idx a0 a1 tags =
        .ok (match pySub (substUnknown r0 a0) (substUnknown r1 a1) with
             | Option.some n => PyVal.num n
             | Option.none =>
               PyVal.node (.BinaryOp idx "Sub" (substUnknown r0 a0) (substUnknown r1 a1) tags))) := by
  intro tmps idx a0 a1 tags
  refine ⟨?_, ?_, ?_, ?_⟩
  · intro v h
    cases h0 : ail_expr tmps a0 with
    | error e => unfold ail_handle_Add at h; rw [h0] at h; exact Except.noConfusion h
    | ok r0 =>
      cases h1 : ail_expr tmps a1 with
      | error e => unfold ail_handle_Add at h; rw [h0, h1] at h; exact Except.noConfusion h
      | ok r1 =>
        rw [ail_handle_Add_eq tmps idx a0 a1 tags r0 r1 h0 h1] at h
        injection h with h
        subst h
        cases pyAdd (substUnknown r0 a0) (substUnknown r1 a1) <;> simp
  · intro v h
    cases h0 : ail_expr tmps a0 with
    | error e => unfold ail_handle_Sub at h; rw [h0] at h; exact Except.noConfusion h
    | ok r0 =>
      cases h1 : ail_expr tmps a1 with
      | error e => unfold ail_handle_Sub at h; rw [h0, h1] at h; exact Except.noConfusion h
      | ok r1 =>
        rw [ail_handle_Sub_eq tmps idx a0 a1 tags r0 r1 h0 h1] at h
        injection h with h
        subst h
        cases pySub (substUnknown r0 a0) (substUnknown r1 a1) <;> simp
  · exact fun r0 r1 h0 h1 => ail_handle_Add_eq tmps idx a0 a1 tags r0 r1 h0 h1
  · exact fun r0 r1 h0 h1 => ail_handle_Sub_eq tmps idx a0 a1 tags r0 r1 h0 h1

/-- C1 witness: Add(Const 5, Tmp 0) with an empty temp table folds the left
operand, substitutes the original right operand, and rebuilds the node with
the original tags. -/
theorem claim_C1_witness :
    ail_handle_Add (some []) Option.none (.node (.Const Option.none 5 []))
        (.node (.Tmp Option.none 0 [])) [("ins_addr", 4096)] =
      .ok (.node (.BinaryOp Option.none "Add" (.num 5) (.node (.Tmp Option.none 0 []))
        [("ins_addr", 4096)])) :=
  (claim_C1 (some []) Option.none (.node (.Const Option.none 5 []))
      (.node (.Tmp Option.none 0 [])) [("ins_addr", 4096)]).2.2.1
    (.num 5) PyVal.none rfl rfl

/-- C2: in dialect A, the Add and Sub handlers short-circuit to unknown
when an operand evaluates to unknown (without evaluating the second
operand when the first is unknown: the first conjunct holds for every
second operand, including those whose evaluation raises), and otherwise
attempt the arithmetic, degrading a type-incompatible failure to unknown
rather than raising. -/
theorem claim_C2 : ∀ (tmps : Option Tmps) (arg0 arg1 : VEXExpr),
    (vex_expr tmps arg0 = .ok PyVal.none →
      vex_handle_Add tmps arg0 arg1 = .ok PyVal.none ∧
      vex_handle_Sub tmps arg0 arg1 = .ok PyVal.none) ∧
    (∀ v0, vex_expr tmps arg0 = .ok v0 → vex_expr tmps arg1 = .ok PyVal.none →
      vex_handle_Add tmps arg0 arg1 = .ok PyVal.none ∧
      vex_handle_Sub tmps arg0 arg1 = .ok PyVal.none) ∧
    (∀ v0 v1, vex_expr tmps arg0 = .ok v0 → v0 ≠ PyVal.none →
      vex_expr tmps arg1 = .ok v1 → v1 ≠ PyVal.none →
      vex_handle_Add tmps arg0 arg1 =
        .ok (match pyAdd v0 v1 with
             | Option.some n => PyVal.num n
             | Option.none => PyVal.none) ∧
      vex_handle_Sub tmps arg0 arg1 =
        .ok (match pySub v0 v1 with
             | Option.some n => PyVal.num n
             | Option.none => PyVal.none)) := by
  intro tmps arg0 arg1
  refine ⟨fun h0 => ⟨?_, ?_⟩, fun v0 h0 h1 => ⟨?_, ?_⟩, fun v0 v1 h0 hv0 h1 hv1 => ⟨?_, ?_⟩⟩
  · unfold vex_handle_Add; rw [h0]
  · unfold vex_handle_Sub; rw [h0]
  · unfold vex_handle_Add; rw [h0, h1]; cases v0 <;> rfl
  · unfold vex_handle_Sub; rw [h0, h1]; cases v0 <;> rfl
  · unfold vex_handle_Add; rw [h0, h1]
    cases v0 with
    | none => exact absurd rfl hv0
    | num n0 => cases v1 with
      | none => exact absurd rfl hv1
      | num n1 => rfl
      | node e1 => rfl
    | node e0 => cases v1 with
      | none => exact absurd rfl hv1
      | num n1 => rfl
      | node e1 => rfl
  · unfold vex_handle_Sub; rw [h0, h1]
    cases v0 with
    | none => exact absurd rfl hv0
    | num n0 => cases v1 with
      | none => exact absurd rfl hv1
      | num n1 => rfl
      | node e1 => rfl
    | node e0 => cases v1 with
      | none => exact absurd rfl hv1
      | num n1 => rfl
      | node e1 => rfl

/-- C2 witness: Add(undefined temp, Get) short-circuits to unknown even
though evaluating the second operand would raise; Add(7, expression node)
degrades the TypeError to unknown. -/
theorem claim_C2_witness :
    (vex_handle_Add (some []) (.RdTmp 0) (.Get 16) = .ok PyVal.none) ∧
    (vex_handle_Sub (some [(0, PyVal.num 7), (1, PyVal.node (.Const Option.none 1 []))])
        (.RdTmp 0) (.RdTmp 1) = .ok PyVal.none) :=
  ⟨((claim_C2 (some []) (.RdTmp 0) (.Get 16)).1 rfl).1,
   ((claim_C2 (some [(0, PyVal.num 7), (1, PyVal.node (.Const Option.none 1 []))])
        (.RdTmp 0) (.RdTmp 1)).2.2 (PyVal.num 7) (PyVal.node (.Const Option.none 1 []))
      rfl (by simp) rfl (by simp)).2⟩

/-- C4: each mandatory capability left unimplemented by the base engine
(Put, Store, Get, Load in dialect A; Jump, Call, Load in dialect B) raises
a fatal NotImplementedError when invoked, while a statement or expression
whose tag has no handler at all is only skipped (statement, context
unchanged) or yields unknown (expression) without raising; the normal
return on one side and the raised error on the other keep the two cases
distinguishable. -/
theorem claim_C4 : ∀ (veng : VEXEngineState) (aeng : AILEngineState) (tmps : Option Tmps)
    (off ia roff : Nat) (dataE addrE : VEXExpr) (idx : Option Nat) (tags : Tags),
    vex_handle_Stmt veng (.Put off dataE) =
      .error (.notImplemented "Please implement the Put handler with your own logic.") ∧
    vex_handle_Stmt veng (.Store addrE dataE) =
      .error (.notImplemented "Please implement the Store handler with your own logic.") ∧
    vex_expr tmps (.Get off) =
      .error (.notImplemented "Please implement the Get handler with your own logic.") ∧
    vex_expr tmps (.Load addrE) =
      .error (.notImplemented "Please implement the Load handler with your own logic.") ∧
    ail_handle_Stmt aeng (.Jump ia) =
      .error (.notImplemented "Please implement the Jump handler with your own logic.") ∧
    ail_handle_Stmt aeng (.Call ia) =
      .error (.notImplemented "Please implement the Call handler with your own logic.") ∧
    ail_expr_node tmps (.Load idx tags) =
      .error (.notImplemented "Please implement the Load handler with your own logic.") ∧
    vex_handle_Stmt veng .NoOp = .ok veng ∧
    vex_expr tmps .CCall = .ok PyVal.none ∧
    ail_handle_Stmt aeng (.ConditionalJump ia) = .ok aeng ∧
    ail_expr_node tmps (.Register idx roff tags) = .ok PyVal.none :=
  fun _ _ _ _ _ _ _ _ _ _ =>
    ⟨rfl, rfl, rfl, rfl, rfl, rfl, rfl, rfl, rfl, rfl, rfl⟩

/-- C5: in both dialects, reading a temp absent from the temp table yields
unknown without raising, and reading a present temp returns exactly the
stored table entry. -/
theorem claim_C5 : ∀ (tb : Tmps) (t : Nat) (idx : Option Nat) (tags : Tags),
    (tb.lookup t = Option.none →
      vex_expr (some tb) (.RdTmp t) = .ok PyVal.none ∧
      ail_expr_node (some tb) (.Tmp idx t tags) = .ok PyVal.none) ∧
    (∀ v, tb.lookup t = some v →
      vex_expr (some tb) (.RdTmp t) = .ok v ∧
      ail_expr_node (some tb) (.Tmp idx t tags) = .ok v) := by
  intro tb t idx tags
  refine ⟨fun h => ⟨?_, ?_⟩, fun v h => ⟨?_, ?_⟩⟩ <;>
    simp [vex_expr, ail_expr_node, h]

/-- C5 witness: with table {1 : 9}, temp 0 reads as unknown and temp 1
reads back the stored 9, in both dialects. -/
theorem claim_C5_witness :
    (vex_expr (some [(1, PyVal.num 9)]) (.RdTmp 0) = .ok PyVal.none ∧
     ail_expr_node (some [(1, PyVal.num 9)]) (.Tmp Option.none 0 []) = .ok PyVal.none) ∧
    (vex_expr (some [(1, PyVal.num 9)]) (.RdTmp 1) = .ok (.num 9) ∧
     ail_expr_node (some [(1, PyVal.num 9)]) (.Tmp Option.none 1 []) = .ok (.num 9)) :=
  ⟨(claim_C5 [(1, PyVal.num 9)] 0 Option.none []).1 rfl,
   (claim_C5 [(1, PyVal.num 9)] 1 Option.none []).2 (.num 9) rfl⟩

/-- C9: in dialect A, when the right-hand side of a WrTmp evaluates to
unknown the whole context is returned unchanged, so a value previously
stored under the destination temp remains readable afterwards. -/
theorem claim_C9 : ∀ (eng : VEXEngineState) (t : Nat) (dataE : VEXExpr),
    vex_expr eng.tmps dataE = .ok PyVal.none →
    vex_handle_Stmt eng (.WrTmp t dataE) = .ok eng ∧
    (∀ eng', vex_handle_Stmt eng (.WrTmp t dataE) = .ok eng' →
      vex_expr eng'.tmps (.RdTmp t) = vex_expr eng.tmps (.RdTmp t)) := by
  intro eng t dataE h
  have hmain : vex_handle_Stmt eng (.WrTmp t dataE) = .ok eng := by
    simp [vex_handle_Stmt, h]
  refine ⟨hmain, fun eng' h' => ?_⟩
  rw [hmain] at h'
  injection h' with h'
  rw [h']

/-- C9 witness: with 5 stored under temp 0, writing the unknown evaluation
of an unsupported expression into temp 0 leaves the context unchanged. -/
theorem claim_C9_witness : vex_handle_Stmt engC9 (.WrTmp 0 .CCall) = .ok engC9 :=
  (claim_C9 engC9 0 .CCall rfl).1

/-- If a string starts with both p and q, the shorter of the two character
lists is a prefix of the longer. -/
theorem startswith_both {s p q : String} (hp : startswith s p = true)
    (hq : startswith s q = true) (hlen : p.data.length ≤ q.data.length) :
    p.data.isPrefixOf q.data = true := by
  unfold startswith at hp hq
  rw [List.isPrefixOf_iff_prefix] at hp hq ⊢
  exact List.prefix_of_prefix_length_le hp hq hlen

/-- C7: dialect-A binary-operator dispatch recognizes exactly the additive,
subtractive, and constant-producing opcode families by prefix match,
routing every width variant of a family to the single generic family
handler, and yields unknown for every opcode outside the three families.
(The Const family is recognized and routed to _handle_Const, whose single
parameter cannot absorb the two Binop operands, so that route raises.) -/
theorem claim_C7 : ∀ (tmps : Option Tmps) (op : String) (a0 a1 : VEXExpr),
    (startswith op "Iop_Add" = true →
      vex_handle_Binop tmps op a0 a1 = vex_handle_Add tmps a0 a1) ∧
    (startswith op "Iop_Sub" = true →
      vex_handle_Binop tmps op a0 a1 = vex_handle_Sub tmps a0 a1) ∧
    (startswith op "Const" = true →
      vex_handle_Binop tmps op a0 a1 =
        .error (.typeError "_handle_Const takes 2 positional arguments but 3 were given")) ∧
    (startswith op "Iop_Add" = false → startswith op "Iop_Sub" = false →
      startswith op "Const" = false →
      vex_handle_Binop tmps op a0 a1 = .ok PyVal.none) := by
  intro tmps op a0 a1
  refine ⟨?_, ?_, ?_, ?_⟩
  · intro h; simp [vex_handle_Binop, h]
  · intro h
    have hA : startswith op "Iop_Add" = false := by
      by_contra hc
      rw [Bool.not_eq_false] at hc
      exact absurd (startswith_both hc h (by decide)) (by decide)
    simp [vex_handle_Binop, hA, h]
  · intro h
    have hA : startswith op "Iop_Add" = false := by
      by_contra hc
      rw [Bool.not_eq_false] at hc
      exact absurd (startswith_both h hc (by decide)) (by decide)
    have hS : startswith op "Iop_Sub" = false := by
      by_contra hc
      rw [Bool.not_eq_false] at hc
      exact absurd (startswith_both h hc (by decide)) (by decide)
    simp [vex_handle_Binop, hA, hS, h]
  · intro h1 h2 h3; simp [vex_handle_Binop, h1, h2, h3]

/-- C7 witness: a 64-bit add opcode routes to the generic Add handler, an
8-bit sub opcode to the generic Sub handler, and a multiply opcode is
outside the recognized families and yields unknown. -/
theorem claim_C7_witness :
    (vex_handle_Binop (some []) "Iop_Add64" (.Const 2) (.Const 3) =
      vex_handle_Add (some []) (.Const 2) (.Const 3)) ∧
    (vex_handle_Binop (some []) "Iop_Sub8" (.Const 2) (.Const 3) =
      vex_handle_Sub (some []) (.Const 2) (.Const 3)) ∧
    (vex_handle_Binop (some []) "Iop_Mul32" (.Const 2) (.Const 3) = .ok PyVal.none) :=
  ⟨(claim_C7 (some []) "Iop_Add64" (.Const 2) (.Const 3)).1 rfl,
   (claim_C7 (some []) "Iop_Sub8" (.Const 2) (.Const 3)).2.1 rfl,
   (claim_C7 (some []) "Iop_Mul32" (.Const 2) (.Const 3)).2.2.2 rfl rfl rfl⟩

/-- A successful statement handler never touches ins_addr, stmt_idx or
block: the only mutation the base VEX handlers perform is the temp-table
write of WrTmp. -/
theorem vex_handle_Stmt_ok {eng eng' : VEXEngineState} {s : VEXStmt}
    (h : vex_handle_Stmt eng s = .ok eng') :
    eng'.ins_addr = eng.ins_addr ∧ eng'.stmt_idx = eng.stmt_idx ∧ eng'.block = eng.block := by
  cases s with
  | WrTmp t dataE =>
    simp only [vex_handle_Stmt] at h
    split at h
    · exact Except.noConfusion h
    · injection h with h; subst h; exact ⟨rfl, rfl, rfl⟩
    · split at h
      · exact Except.noConfusion h
      · injection h with h; subst h; exact ⟨rfl, rfl, rfl⟩
  | Put o d => simp only [vex_handle_Stmt] at h; exact Except.noConfusion h
  | Store a d => simp only [vex_handle_Stmt] at h; exact Except.noConfusion h
  | IMark a len d =>
    simp only [vex_handle_Stmt] at h
    injection h with h; subst h; exact ⟨rfl, rfl, rfl⟩
  | NoOp =>
    simp only [vex_handle_Stmt] at h
    injection h with h; subst h; exact ⟨rfl, rfl, rfl⟩

/-- The instruction address recorded in the j-th trace entry of the VEX
statement loop is the one computed by replaying the marker updates over
the first j+1 statements. -/
theorem vexLoop_trace_ins_addr :
    ∀ (stmts : List VEXStmt) (eng : VEXEngineState) (idx j : Nat) (cl : CodeLocation),
      ((vexLoop eng stmts idx).2.1)[j]? = some cl →
      cl.ins_addr = insAddrAt eng.ins_addr stmts j := by
  intro stmts
  induction stmts with
  | nil =>
    intro eng idx j cl h
    simp [vexLoop] at h
  | cons s r ih =>
    intro eng idx j cl h
    unfold vexLoop at h
    dsimp only at h
    cases hs : vex_handle_Stmt
        { eng with stmt_idx := some idx, ins_addr := vexStepIns eng.ins_addr s } s with
    | error e =>
      rw [hs] at h
      cases j with
      | zero =>
        simp at h
        rw [← h]
        rfl
      | succ j => simp at h
    | ok eng2 =>
      rw [hs] at h
      cases j with
      | zero =>
        simp at h
        rw [← h]
        rfl
      | succ j =>
        simp only [List.getElem?_cons_succ] at h
        have hrec := ih eng2 (idx + 1) j cl h
        have hp := vex_handle_Stmt_ok hs
        rw [hrec]
        show insAddrAt eng2.ins_addr r j = insAddrAt (vexStepIns eng.ins_addr s) r j
        rw [hp.1]

/-- insAddrAt is the left fold of the marker updates over the statement
prefix of length j+1. -/
theorem insAddrAt_eq_foldl :
    ∀ (stmts : List VEXStmt) (ia : Option Nat) (j : Nat),
      insAddrAt ia stmts j = (stmts.take (j + 1)).foldl vexStepIns ia := by
  intro stmts
  induction stmts with
  | nil => intro ia j; simp [insAddrAt]
  | cons s r ih =>
    intro ia j
    cases j with
    | zero => simp [insAddrAt, List.take]
    | succ j =>
      rw [show insAddrAt ia (s :: r) (j + 1) = insAddrAt (vexStepIns ia s) r j from rfl]
      rw [ih (vexStepIns ia s) j]
      rfl

/-- Folding the marker update over a marker-free statement list leaves the
instruction address unchanged. -/
theorem foldl_step_no_marker :
    ∀ (l : List VEXStmt) (ia : Option Nat),
      l.all (fun s => !s.isIMark) = true → l.foldl vexStepIns ia = ia := by
  intro l
  induction l with
  | nil => intro ia _; rfl
  | cons s r ih =>
    intro ia h
    rw [List.all_cons, Bool.and_eq_true] at h
    have hstep : vexStepIns ia s = ia := by
      cases s with
      | IMark a len d => simp [VEXStmt.isIMark] at h
      | WrTmp t dE => rfl
      | Put o dE => rfl
      | Store a dE => rfl
      | NoOp => rfl
    rw [List.foldl_cons, hstep, ih ia h.2]

/-- Folding the marker update over a prefix ending at a marker statement
yields exactly that marker's base+delta value. -/
theorem foldl_step_marker (stmts : List VEXStmt) (ia : Option Nat) (i a len d : Nat)
    (h : stmts[i]? = some (.IMark a len d)) :
    (stmts.take (i + 1)).foldl vexStepIns ia = some (a + d) := by
  rw [List.take_succ, h, List.foldl_append]
  rfl

/-- C6: in dialect A a marker statement sets the current instruction
address to its base plus delta, and the code location of every following
statement up to the next marker carries exactly that address. -/
theorem claim_C6 : ∀ (eng : VEXEngineState) (stmts : List VEXStmt) (i j a len d : Nat)
    (cl : CodeLocation),
    stmts[i]? = some (.IMark a len d) →
    i ≤ j →
    ((stmts.drop (i + 1)).take (j - i)).all (fun s => !s.isIMark) = true →
    ((vexLoop eng stmts 0).2.1)[j]? = some cl →
    cl.ins_addr = some (a + d) := by
  intro eng stmts i j a len d cl hm hij hnm ht
  rw [vexLoop_trace_ins_addr stmts eng 0 j cl ht]
  rw [insAddrAt_eq_foldl]
  have hsplit : j + 1 = (i + 1) + (j - i) := by omega
  rw [hsplit, List.take_add, List.foldl_append]
  rw [foldl_step_marker stmts eng.ins_addr i a len d hm]
  exact foldl_step_no_marker _ _ hnm

/-- C6 witness: the marker-reconstruction example of the claim, markers at
0x1000+0 and 0x1000+4, gives the trailing statements instruction addresses
0x1000 and 0x1004. -/
theorem claim_C6_witness :
    ((vexLoop vexFresh stmtsC6 0).2.1)[1]? =
      some { block_addr := Option.none, stmt_idx := some 1, ins_addr := some 0x1000 } ∧
    ((vexLoop vexFresh stmtsC6 0).2.1)[3]? =
      some { block_addr := Option.none, stmt_idx := some 3, ins_addr := some 0x1004 } ∧
    CodeLocation.ins_addr
        { block_addr := Option.none, stmt_idx := some 1, ins_addr := some 0x1000 } =
      some (0x1000 + 0) ∧
    CodeLocation.ins_addr
        { block_addr := Option.none, stmt_idx := some 3, ins_addr := some 0x1004 } =
      some (0x1000 + 4) :=
  ⟨rfl, rfl,
   claim_C6 vexFresh stmtsC6 0 1 0x1000 4 0
     { block_addr := Option.none, stmt_idx := some 1, ins_addr := some 0x1000 }
     rfl (by decide) rfl rfl,
   claim_C6 vexFresh stmtsC6 2 3 0x1000 4 4
     { block_addr := Option.none, stmt_idx := some 3, ins_addr := some 0x1004 }
     rfl (by decide) rfl rfl⟩

/-- optLe is reflexive. -/
theorem optLe_refl (x : Option Nat) : optLe x x = true := by
  cases x <;> simp [optLe]

/-- optLe is transitive. -/
theorem optLe_trans {x y z : Option Nat} (h1 : optLe x y = true) (h2 : optLe y z = true) :
    optLe x z = true := by
  cases x with
  | none => rfl
  | some a =>
    cases y with
    | none => exact absurd h1 (by simp [optLe])
    | some b =>
      cases z with
      | none => exact absurd h2 (by simp [optLe])
      | some c =>
        simp [optLe] at h1 h2 ⊢
        omega

/-- If the start address precedes every marker value in order, the replayed
instruction address never drops below the start address. -/
theorem insAddrAt_le_start :
    ∀ (stmts : List VEXStmt) (ia : Option Nat),
      List.Chain' (fun x y => optLe x y = true) (ia :: (markerVals stmts).map some) →
      ∀ j, optLe ia (insAddrAt ia stmts j) = true := by
  intro stmts
  induction stmts with
  | nil => intro ia _ j; exact optLe_refl ia
  | cons s r ih =>
    intro ia h j
    cases s with
    | IMark a len d =>
      obtain ⟨hab, hr⟩ := List.chain'_cons.mp h
      cases j with
      | zero => exact hab
      | succ j => exact optLe_trans hab (ih (some (a + d)) hr j)
    | WrTmp t dE =>
      cases j with
      | zero => exact optLe_refl ia
      | succ j => exact ih ia h j
    | Put o dE =>
      cases j with
      | zero => exact optLe_refl ia
      | succ j => exact ih ia h j
    | Store a dE =>
      cases j with
      | zero => exact optLe_refl ia
      | succ j => exact ih ia h j
    | NoOp =>
      cases j with
      | zero => exact optLe_refl ia
      | succ j => exact ih ia h j

/-- If the start address precedes every marker value and the marker values
are in non-decreasing order, the replayed instruction address is monotone
over statement positions. -/
theorem insAddrAt_mono :
    ∀ (stmts : List VEXStmt) (ia : Option Nat),
      List.Chain' (fun x y => optLe x y = true) (ia :: (markerVals stmts).map some) →
      ∀ j1 j2, j1 ≤ j2 →
        optLe (insAddrAt ia stmts j1) (insAddrAt ia stmts j2) = true := by
  intro stmts
  induction stmts with
  | nil => intro ia _ j1 j2 _; exact optLe_refl ia
  | cons s r ih =>
    intro ia h j1 j2 hle
    cases s with
    | IMark a len d =>
      obtain ⟨hab, hr⟩ := List.chain'_cons.mp h
      cases j1 with
      | zero =>
        cases j2 with
        | zero => exact optLe_refl _
        | succ j2 => exact insAddrAt_le_start r (some (a + d)) hr j2
      | succ j1 =>
        cases j2 with
        | zero => exact absurd hle (by omega)
        | succ j2 => exact ih (some (a + d)) hr j1 j2 (by omega)
    | WrTmp t dE =>
      cases j1 with
      | zero =>
        cases j2 with
        | zero => exact optLe_refl _
        | succ j2 => exact insAddrAt_le_start r ia h j2
      | succ j1 =>
        cases j2 with
        | zero => exact absurd hle (by omega)
        | succ j2 => exact ih ia h j1 j2 (by omega)
    | Put o dE =>
      cases j1 with
      | zero =>
        cases j2 with
        | zero => exact optLe_refl _
        | succ j2 => exact insAddrAt_le_start r ia h j2
      | succ j1 =>
        cases j2 with
        | zero => exact absurd hle (by omega)
        | succ j2 => exact ih ia h j1 j2 (by omega)
    | Store a dE =>
      cases j1 with
      | zero =>
        cases j2 with
        | zero => exact optLe_refl _
        | succ j2 => exact insAddrAt_le_start r ia h j2
      | succ j1 =>
        cases j2 with
        | zero => exact absurd hle (by omega)
        | succ j2 => exact ih ia h j1 j2 (by omega)
    | NoOp =>
      cases j1 with
      | zero =>
        cases j2 with
        | zero => exact optLe_refl _
        | succ j2 => exact insAddrAt_le_start r ia h j2
      | succ j1 =>
        cases j2 with
        | zero => exact absurd hle (by omega)
        | succ j2 => exact ih ia h j1 j2 (by omega)

/-- The j-th trace entry of the AIL statement loop carries exactly the
instruction address of the j-th statement. -/
theorem ailLoop_trace_ins_addr :
    ∀ (stmts : List AILStmt) (eng : AILEngineState) (idx j : Nat) (cl : CodeLocation),
      ((ailLoop eng stmts idx).2.1)[j]? = some cl →
      ∃ s, stmts[j]? = some s ∧ cl.ins_addr = some s.insAddr := by
  intro stmts
  induction stmts with
  | nil =>
    intro eng idx j cl h
    simp [ailLoop] at h
  | cons s r ih =>
    intro eng idx j cl h
    unfold ailLoop at h
    dsimp only at h
    cases hs : ail_handle_Stmt
        { eng with stmt_idx := some idx, ins_addr := some s.insAddr } s with
    | error e =>
      rw [hs] at h
      cases j with
      | zero =>
        simp at h
        exact ⟨s, by simp, by rw [← h]; rfl⟩
      | succ j => simp at h
    | ok eng2 =>
      rw [hs] at h
      cases j with
      | zero =>
        simp at h
        exact ⟨s, by simp, by rw [← h]; rfl⟩
      | succ j =>
        simp only [List.getElem?_cons_succ] at h ⊢
        exact ih eng2 (idx + 1) j cl h

/-- C8 counterexample: a block whose second marker carries a lower address
than the first yields a code-location trace whose instruction addresses
decrease (0x1000 at statement 1, 0x500 at statement 3), so the claimed
unconditional monotonicity fails on this concrete block. -/
theorem claim_C8_counterexample :
    ((vexLoop vexFresh stmtsC8bad 0).2.1)[1]? =
      some { block_addr := Option.none, stmt_idx := some 1, ins_addr := some 4096 } ∧
    ((vexLoop vexFresh stmtsC8bad 0).2.1)[3]? =
      some { block_addr := Option.none, stmt_idx := some 3, ins_addr := some 1280 } ∧
    optLe (some 4096) (some 1280) = false :=
  ⟨rfl, rfl, by decide⟩

/-- C8 (amended): the instruction address observed over a block's statement
sequence is non-decreasing provided the marker values (dialect A: base plus
delta of each marker in order, starting from the engine's current
instruction address) respectively the per-statement instruction addresses
(dialect B) occur in non-decreasing order; the engine itself does not
enforce that ordering. -/
theorem claim_C8_amended :
    (∀ (eng : VEXEngineState) (stmts : List VEXStmt) (i j : Nat) (ci cj : CodeLocation),
      List.Chain' (fun x y => optLe x y = true) (eng.ins_addr :: (markerVals stmts).map some) →
      i ≤ j →
      ((vexLoop eng stmts 0).2.1)[i]? = some ci →
      ((vexLoop eng stmts 0).2.1)[j]? = some cj →
      optLe ci.ins_addr cj.ins_addr = true) ∧
    (∀ (eng : AILEngineState) (stmts : List AILStmt) (i j : Nat) (ci cj : CodeLocation),
      List.Chain' (fun s t : AILStmt => s.insAddr ≤ t.insAddr) stmts →
      i ≤ j →
      ((ailLoop eng stmts 0).2.1)[i]? = some ci →
      ((ailLoop eng stmts 0).2.1)[j]? = some cj →
      optLe ci.ins_addr cj.ins_addr = true) := by
  constructor
  · intro eng stmts i j ci cj hchain hij hi hj
    rw [vexLoop_trace_ins_addr stmts eng 0 i ci hi,
        vexLoop_trace_ins_addr stmts eng 0 j cj hj]
    exact insAddrAt_mono stmts eng.ins_addr hchain i j hij
  · intro eng stmts i j ci cj hchain hij hi hj
    obtain ⟨si, hsi, hci⟩ := ailLoop_trace_ins_addr stmts eng 0 i ci hi
    obtain ⟨sj, hsj, hcj⟩ := ailLoop_trace_ins_addr stmts eng 0 j cj hj
    rw [hci, hcj]
    have hpair : List.Pairwise (fun s t : AILStmt => s.insAddr ≤ t.insAddr) stmts := by
      haveI : IsTrans AILStmt (fun s t : AILStmt => s.insAddr ≤ t.insAddr) :=
        ⟨fun _ _ _ h1 h2 => le_trans h1 h2⟩
      exact List.chain'_iff_pairwise.mp hchain
    have hile : si.insAddr ≤ sj.insAddr := by
      rcases Nat.lt_or_ge i j with hlt | hge
      · have hilen : i < stmts.length := by
          have := List.getElem?_eq_some_iff.mp hsi
          exact this.1
        have hjlen : j < stmts.length := by
          have := List.getElem?_eq_some_iff.mp hsj
          exact this.1
        have hgi : stmts.get ⟨i, hilen⟩ = si := by
          have := List.getElem?_eq_some_iff.mp hsi
          simpa [List.get_eq_getElem] using this.2
        have hgj : stmts.get ⟨j, hjlen⟩ = sj := by
          have := List.getElem?_eq_some_iff.mp hsj
          simpa [List.get_eq_getElem] using this.2
        have := List.pairwise_iff_get.mp hpair ⟨i, hilen⟩ ⟨j, hjlen⟩ hlt
        rw [hgi, hgj] at this
        exact this
      · have : i = j := by omega
        subst this
        rw [hsi] at hsj
        injection hsj with hsj
        rw [hsj]
    simp [optLe, hile]

/-- C8 witness: with markers in increasing order (dialect A) and statement
addresses in increasing order (dialect B), the observed instruction
addresses are non-decreasing. -/
theorem claim_C8_witness :
    optLe (CodeLocation.ins_addr
        { block_addr := Option.none, stmt_idx := some 1, ins_addr := some 4096 })
      (CodeLocation.ins_addr
        { block_addr := Option.none, stmt_idx := some 3, ins_addr := some 4100 }) = true ∧
    optLe (CodeLocation.ins_addr
        { block_addr := Option.none, stmt_idx := some 0, ins_addr := some 4096 })
      (CodeLocation.ins_addr
        { block_addr := Option.none, stmt_idx := some 1, ins_addr := some 4100 }) = true :=
  ⟨claim_C8_amended.1 vexFresh stmtsC8good 1 3
      { block_addr := Option.none, stmt_idx := some 1, ins_addr := some 4096 }
      { block_addr := Option.none, stmt_idx := some 3, ins_addr := some 4100 }
      (List.chain'_cons.mpr ⟨rfl, List.chain'_cons.mpr ⟨by decide, List.chain'_singleton _⟩⟩)
      (by decide) rfl rfl,
   claim_C8_amended.2 ailFresh ailStmtsC8 0 1
      { block_addr := Option.none, stmt_idx := some 0, ins_addr := some 4096 }
      { block_addr := Option.none, stmt_idx := some 1, ins_addr := some 4100 }
      (List.chain'_cons.mpr ⟨by decide, List.chain'_singleton _⟩)
      (by decide) rfl rfl⟩

/-- A normally completing VEX process() call sets stmt_idx and ins_addr
back to None before returning. -/
theorem vex_process_ok_clears :
    ∀ (eng : VEXEngineState) (st : SimState) (blk : VEXBlock),
      (vex_process eng st (some blk)).2.2 = Option.none →
      (vex_process eng st (some blk)).1.stmt_idx = Option.none ∧
      (vex_process eng st (some blk)).1.ins_addr = Option.none := by
  intro eng st blk
  unfold vex_process
  dsimp only
  cases hr : (vexLoop
      { eng with
        tmps := some [], block := some blk, state := some st,
        arch := some st.arch, tyenv := some blk.vex.tyenv }
      blk.vex.statements 0).2.2 with
  | none => intro _; exact ⟨rfl, rfl⟩
  | some e => intro h; exact Option.noConfusion h

/-- A normally completing AIL process() call sets stmt_idx and ins_addr
back to None before returning. -/
theorem ail_process_ok_clears :
    ∀ (eng : AILEngineState) (st : SimState) (blk : AILBlock),
      (ail_process eng st (some blk)).2.2 = Option.none →
      (ail_process eng st (some blk)).1.stmt_idx = Option.none ∧
      (ail_process eng st (some blk)).1.ins_addr = Option.none := by
  intro eng st blk
  unfold ail_process
  dsimp only
  cases hr : (ailLoop
      { eng with
        tmps := some [], block := some blk, state := some st,
        arch := some st.arch }
      blk.statements 0).2.2 with
  | none => intro _; exact ⟨rfl, rfl⟩
  | some e => intro h; exact Option.noConfusion h

/-- The code-location trace of a VEX process() call is the trace of the
statement loop started on the freshly initialized context. -/
theorem vex_process_trace :
    ∀ (eng : VEXEngineState) (st : SimState) (blk : VEXBlock),
      (vex_process eng st (some blk)).2.1 =
        (vexLoop
          { eng with
            tmps := some [], block := some blk, state := some st,
            arch := some st.arch, tyenv := some blk.vex.tyenv }
          blk.vex.statements 0).2.1 := by
  intro eng st blk
  unfold vex_process
  dsimp only
  cases hr : (vexLoop
      { eng with
        tmps := some [], block := some blk, state := some st,
        arch := some st.arch, tyenv := some blk.vex.tyenv }
      blk.vex.statements 0).2.2 with
  | none => rfl
  | some e => rfl

/-- C10: a fresh engine has no instruction address, a normally completed
process() call clears it back to absent, and every statement before the
first marker of a block is processed with an absent instruction address in
its code location, both on a loop started with an absent address and on
any process() call that follows a normally completed one. -/
theorem claim_C10 :
    vexFresh.ins_addr = Option.none ∧
    (∀ (eng : VEXEngineState) (st : SimState) (blk : VEXBlock),
      (vex_process eng st (some blk)).2.2 = Option.none →
      (vex_process eng st (some blk)).1.ins_addr = Option.none) ∧
    (∀ (eng : VEXEngineState) (stmts : List VEXStmt) (j : Nat) (cl : CodeLocation),
      eng.ins_addr = Option.none →
      (stmts.take (j + 1)).all (fun s => !s.isIMark) = true →
      ((vexLoop eng stmts 0).2.1)[j]? = some cl →
      cl.ins_addr = Option.none) ∧
    (∀ (eng : VEXEngineState) (st st2 : SimState) (blk blk2 : VEXBlock) (j : Nat)
        (cl : CodeLocation),
      (vex_process eng st (some blk)).2.2 = Option.none →
      (blk2.vex.statements.take (j + 1)).all (fun s => !s.isIMark) = true →
      ((vex_process (vex_process eng st (some blk)).1 st2 (some blk2)).2.1)[j]? = some cl →
      cl.ins_addr = Option.none) := by
  have key : ∀ (eng : VEXEngineState) (stmts : List VEXStmt) (j : Nat) (cl : CodeLocation),
      eng.ins_addr = Option.none →
      (stmts.take (j + 1)).all (fun s => !s.isIMark) = true →
      ((vexLoop eng stmts 0).2.1)[j]? = some cl →
      cl.ins_addr = Option.none := by
    intro eng stmts j cl hia hnm ht
    rw [vexLoop_trace_ins_addr stmts eng 0 j cl ht, insAddrAt_eq_foldl, hia]
    exact foldl_step_no_marker _ _ hnm
  refine ⟨rfl, ?_, key, ?_⟩
  · intro eng st blk h
    exact (vex_process_ok_clears eng st blk h).2
  · intro eng st st2 blk blk2 j cl hcomplete hnm ht
    rw [vex_process_trace] at ht
    refine key _ blk2.vex.statements j cl ?_ hnm ht
    exact (vex_process_ok_clears eng st blk hcomplete).2

/-- C10 witness: after a completed call on the empty block, processing a
block whose first statement precedes its first marker records an absent
instruction address for that statement. -/
theorem claim_C10_witness :
    CodeLocation.ins_addr
        { block_addr := some 0x500000, stmt_idx := some 0, ins_addr := Option.none } =
      Option.none :=
  claim_C10.2.2.2 vexFresh ⟨0⟩ ⟨0⟩ blockEmpty blockC10 0
    { block_addr := some 0x500000, stmt_idx := some 0, ins_addr := Option.none }
    rfl rfl rfl

/-- C3 counterexample: after a normally returning process() call on a block
that writes temp 0, the temp table still holds the written entry and the
block, state and architecture fields are still bound, so the claim that
every context field written during the call is cleared before return fails
on this concrete input (only stmt_idx and ins_addr are cleared). -/
theorem claim_C3_counterexample :
    (vex_process vexFresh ⟨0⟩ (some blockC3)).2.2 = Option.none ∧
    (vex_process vexFresh ⟨0⟩ (some blockC3)).1.tmps = some [(0, PyVal.num 5)] ∧
    (vex_process vexFresh ⟨0⟩ (some blockC3)).1.block = some blockC3 ∧
    (vex_process vexFresh ⟨0⟩ (some blockC3)).1.state = some ⟨0⟩ ∧
    (vex_process vexFresh ⟨0⟩ (some blockC3)).1.arch = some 0 :=
  ⟨rfl, rfl, rfl, rfl, rfl⟩

/-- A successful statement handler never touches block, state, arch or
tyenv: WrTmp only writes the temp table. -/
theorem vex_handle_Stmt_frame {eng eng' : VEXEngineState} {s : VEXStmt}
    (h : vex_handle_Stmt eng s = .ok eng') :
    eng'.block = eng.block ∧ eng'.state = eng.state ∧ eng'.arch = eng.arch ∧
    eng'.tyenv = eng.tyenv := by
  cases s with
  | WrTmp t dataE =>
    simp only [vex_handle_Stmt] at h
    split at h
    · exact Except.noConfusion h
    · injection h with h; subst h; exact ⟨rfl, rfl, rfl, rfl⟩
    · split at h
      · exact Except.noConfusion h
      · injection h with h; subst h; exact ⟨rfl, rfl, rfl, rfl⟩
  | Put o d => simp only [vex_handle_Stmt] at h; exact Except.noConfusion h
  | Store a d => simp only [vex_handle_Stmt] at h; exact Except.noConfusion h
  | IMark a len d =>
    simp only [vex_handle_Stmt] at h
    injection h with h; subst h; exact ⟨rfl, rfl, rfl, rfl⟩
  | NoOp =>
    simp only [vex_handle_Stmt] at h
    injection h with h; subst h; exact ⟨rfl, rfl, rfl, rfl⟩

/-- The whole VEX statement loop preserves the block, state, arch and
tyenv bindings, on both the normal and the error path. -/
theorem vexLoop_frame :
    ∀ (stmts : List VEXStmt) (eng : VEXEngineState) (idx : Nat),
      (vexLoop eng stmts idx).1.block = eng.block ∧
      (vexLoop eng stmts idx).1.state = eng.state ∧
      (vexLoop eng stmts idx).1.arch = eng.arch ∧
      (vexLoop eng stmts idx).1.tyenv = eng.tyenv := by
  intro stmts
  induction stmts with
  | nil => intro eng idx; exact ⟨rfl, rfl, rfl, rfl⟩
  | cons s r ih =>
    intro eng idx
    unfold vexLoop
    dsimp only
    cases hs : vex_handle_Stmt
        { eng with stmt_idx := some idx, ins_addr := vexStepIns eng.ins_addr s } s with
    | error e => exact ⟨rfl, rfl, rfl, rfl⟩
    | ok eng2 =>
      have hf := vex_handle_Stmt_frame hs
      have hrec := ih eng2 (idx + 1)
      exact ⟨hrec.1.trans hf.1, hrec.2.1.trans hf.2.1,
             hrec.2.2.1.trans hf.2.2.1, hrec.2.2.2.trans hf.2.2.2⟩

/-- A successful AIL statement handler returns the context unchanged: the
base class Jump/Call handlers raise, every other statement is skipped. -/
theorem ail_handle_Stmt_ok_eq {eng eng' : AILEngineState} {s : AILStmt}
    (h : ail_handle_Stmt eng s = .ok eng') : eng' = eng := by
  cases s with
  | Jump a => simp only [ail_handle_Stmt] at h; exact Except.noConfusion h
  | Call a => simp only [ail_handle_Stmt] at h; exact Except.noConfusion h
  | Assignment a =>
    simp only [ail_handle_Stmt] at h
    injection h with h; exact h.symm
  | Store a =>
    simp only [ail_handle_Stmt] at h
    injection h with h; exact h.symm
  | ConditionalJump a =>
    simp only [ail_handle_Stmt] at h
    injection h with h; exact h.symm

/-- The whole AIL statement loop preserves the block, state, arch and temp
table bindings, on both the normal and the error path. -/
theorem ailLoop_frame :
    ∀ (stmts : List AILStmt) (eng : AILEngineState) (idx : Nat),
      (ailLoop eng stmts idx).1.block = eng.block ∧
      (ailLoop eng stmts idx).1.state = eng.state ∧
      (ailLoop eng stmts idx).1.arch = eng.arch ∧
      (ailLoop eng stmts idx).1.tmps = eng.tmps := by
  intro stmts
  induction stmts with
  | nil => intro eng idx; exact ⟨rfl, rfl, rfl, rfl⟩
  | cons s r ih =>
    intro eng idx
    unfold ailLoop
    dsimp only
    cases hs : ail_handle_Stmt
        { eng with stmt_idx := some idx, ins_addr := some s.insAddr } s with
    | error e => exact ⟨rfl, rfl, rfl, rfl⟩
    | ok eng2 =>
      have hf := ail_handle_Stmt_ok_eq hs
      subst hf
      exact ih _ (idx + 1)

/-- When the VEX statement loop stops with an error, the statement index
of the failing statement is still bound in the final context. -/
theorem vexLoop_error_stmt_idx :
    ∀ (stmts : List VEXStmt) (eng : VEXEngineState) (idx : Nat) (e : PyErr),
      (vexLoop eng stmts idx).2.2 = some e →
      ∃ k, (vexLoop eng stmts idx).1.stmt_idx = some k := by
  intro stmts
  induction stmts with
  | nil => intro eng idx e h; exact Option.noConfusion h
  | cons s r ih =>
    intro eng idx e h
    unfold vexLoop at h ⊢
    dsimp only at h ⊢
    cases hs : vex_handle_Stmt
        { eng with stmt_idx := some idx, ins_addr := vexStepIns eng.ins_addr s } s with
    | error e2 => exact ⟨idx, rfl⟩
    | ok eng2 =>
      rw [hs] at h
      exact ih eng2 (idx + 1) e h

/-- On a normally returning VEX process() call, the returned context is
exactly the end-of-run context with stmt_idx and ins_addr overwritten. -/
theorem vex_process_ok_context :
    ∀ (eng : VEXEngineState) (st : SimState) (blk : VEXBlock),
      (vex_process eng st (some blk)).2.2 = Option.none →
      (vex_process eng st (some blk)).1 =
        { (vexLoop (vexInit eng st blk) blk.vex.statements 0).1 with
          stmt_idx := Option.none, ins_addr := Option.none } := by
  intro eng st blk h
  unfold vex_process at h ⊢
  dsimp only at h ⊢
  cases hr : (vexLoop
      { eng with
        tmps := some [], block := some blk, state := some st,
        arch := some st.arch, tyenv := some blk.vex.tyenv }
      blk.vex.statements 0).2.2 with
  | none => rfl
  | some e => rw [hr] at h; exact Option.noConfusion h

/-- On an error-terminated VEX process() call, the returned context is
exactly the end-of-run context: nothing is cleared. -/
theorem vex_process_error_context :
    ∀ (eng : VEXEngineState) (st : SimState) (blk : VEXBlock) (e : PyErr),
      (vex_process eng st (some blk)).2.2 = some e →
      (vex_process eng st (some blk)).1 =
        (vexLoop (vexInit eng st blk) blk.vex.statements 0).1 := by
  intro eng st blk e h
  unfold vex_process at h ⊢
  dsimp only at h ⊢
  cases hr : (vexLoop
      { eng with
        tmps := some [], block := some blk, state := some st,
        arch := some st.arch, tyenv := some blk.vex.tyenv }
      blk.vex.statements 0).2.2 with
  | none => rw [hr] at h; exact Option.noConfusion h
  | some e2 => rfl

/-- An error escaping a VEX process() call is the error the statement loop
stopped with. -/
theorem vex_process_error_err :
    ∀ (eng : VEXEngineState) (st : SimState) (blk : VEXBlock) (e : PyErr),
      (vex_process eng st (some blk)).2.2 = some e →
      (vexLoop (vexInit eng st blk) blk.vex.statements 0).2.2 = some e := by
  intro eng st blk e h
  unfold vex_process at h
  dsimp only at h
  cases hr : (vexLoop
      { eng with
        tmps := some [], block := some blk, state := some st,
        arch := some st.arch, tyenv := some blk.vex.tyenv }
      blk.vex.statements 0).2.2 with
  | none => rw [hr] at h; exact Option.noConfusion h
  | some e2 =>
    rw [hr] at h
    exact hr.trans h

/-- On a normally returning AIL process() call, the returned context is
exactly the end-of-run context with stmt_idx and ins_addr overwritten. -/
theorem ail_process_ok_context :
    ∀ (eng : AILEngineState) (st : SimState) (blk : AILBlock),
      (ail_process eng st (some blk)).2.2 = Option.none →
      (ail_process eng st (some blk)).1 =
        { (ailLoop (ailInit eng st blk) blk.statements 0).1 with
          stmt_idx := Option.none, ins_addr := Option.none } := by
  intro eng st blk h
  unfold ail_process at h ⊢
  dsimp only at h ⊢
  cases hr : (ailLoop
      { eng with
        tmps := some [], block := some blk, state := some st,
        arch := some st.arch }
      blk.statements 0).2.2 with
  | none => rfl
  | some e => rw [hr] at h; exact Option.noConfusion h

/-- On an error-terminated AIL process() call, the returned context is
exactly the end-of-run context: nothing is cleared. -/
theorem ail_process_error_context :
    ∀ (eng : AILEngineState) (st : SimState) (blk : AILBlock) (e : PyErr),
      (ail_process eng st (some blk)).2.2 = some e →
      (ail_process eng st (some blk)).1 =
        (ailLoop (ailInit eng st blk) blk.statements 0).1 := by
  intro eng st blk e h
  unfold ail_process at h ⊢
  dsimp only at h ⊢
  cases hr : (ailLoop
      { eng with
        tmps := some [], block := some blk, state := some st,
        arch := some st.arch }
      blk.statements 0).2.2 with
  | none => rw [hr] at h; exact Option.noConfusion h
  | some e2 => rfl

/-- C3 (amended): before a normally returning process() call ends, exactly
the statement index and the instruction address are cleared (the returned
context is the end-of-run context with only those two fields overwritten);
the temp table, current block, state and architecture descriptor keep the
values written during the call (block/state/arch/tyenv still hold the call
bindings, and a later call cannot observe them: process() is invariant
under the retained fields of the incoming context, which it re-initializes
at its start); and on an early error exit nothing is cleared (the context
is exactly the end-of-run context, with the failing statement index still
bound). -/
theorem claim_C3_amended :
    (∀ (eng : VEXEngineState) (st : SimState) (blk : VEXBlock),
      (vex_process eng st (some blk)).2.2 = Option.none →
      (vex_process eng st (some blk)).1 =
        { (vexLoop (vexInit eng st blk) blk.vex.statements 0).1 with
          stmt_idx := Option.none, ins_addr := Option.none }) ∧
    (∀ (eng : VEXEngineState) (st : SimState) (blk : VEXBlock),
      (vex_process eng st (some blk)).2.2 = Option.none →
      (vex_process eng st (some blk)).1.block = some blk ∧
      (vex_process eng st (some blk)).1.state = some st ∧
      (vex_process eng st (some blk)).1.arch = some st.arch ∧
      (vex_process eng st (some blk)).1.tyenv = some blk.vex.tyenv) ∧
    (∀ (eng : VEXEngineState) (st : SimState) (blk : VEXBlock) (tmps' : Option Tmps)
        (block' : Option VEXBlock) (state' : Option SimState) (arch' tyenv' : Option Nat),
      vex_process
          { eng with tmps := tmps', block := block', state := state',
                     arch := arch', tyenv := tyenv' } st (some blk) =
        vex_process eng st (some blk)) ∧
    (∀ (eng : VEXEngineState) (st : SimState) (blk : VEXBlock) (e : PyErr),
      (vex_process eng st (some blk)).2.2 = some e →
      (vex_process eng st (some blk)).1 =
        (vexLoop (vexInit eng st blk) blk.vex.statements 0).1 ∧
      ∃ k, (vex_process eng st (some blk)).1.stmt_idx = some k) ∧
    (∀ (eng : AILEngineState) (st : SimState) (blk : AILBlock),
      (ail_process eng st (some blk)).2.2 = Option.none →
      (ail_process eng st (some blk)).1 =
        { (ailLoop (ailInit eng st blk) blk.statements 0).1 with
          stmt_idx := Option.none, ins_addr := Option.none }) ∧
    (∀ (eng : AILEngineState) (st : SimState) (blk : AILBlock),
      (ail_process eng st (some blk)).2.2 = Option.none →
      (ail_process eng st (some blk)).1.block = some blk ∧
      (ail_process eng st (some blk)).1.state = some st ∧
      (ail_process eng st (some blk)).1.arch = some st.arch ∧
      (ail_process eng st (some blk)).1.tmps = some []) ∧
    (∀ (eng : AILEngineState) (st : SimState) (blk : AILBlock) (tmps' : Option Tmps)
        (block' : Option AILBlock) (state' : Option SimState) (arch' : Option Nat),
      ail_process
          { eng with tmps := tmps', block := block', state := state', arch := arch' }
          st (some blk) =
        ail_process eng st (some blk)) ∧
    (∀ (eng : AILEngineState) (st : SimState) (blk : AILBlock) (e : PyErr),
      (ail_process eng st (some blk)).2.2 = some e →
      (ail_process eng st (some blk)).1 =
        (ailLoop (ailInit eng st blk) blk.statements 0).1) := by
  refine ⟨vex_process_ok_context, ?_, ?_, ?_,
          ail_process_ok_context, ?_, ?_, ail_process_error_context⟩
  · intro eng st blk h
    rw [vex_process_ok_context eng st blk h]
    have hfr := vexLoop_frame blk.vex.statements (vexInit eng st blk) 0
    exact ⟨hfr.1, hfr.2.1, hfr.2.2.1, hfr.2.2.2⟩
  · intro eng st blk tmps' block' state' arch' tyenv'
    rfl
  · intro eng st blk e h
    refine ⟨vex_process_error_context eng st blk e h, ?_⟩
    rw [vex_process_error_context eng st blk e h]
    exact vexLoop_error_stmt_idx blk.vex.statements (vexInit eng st blk) 0 e
      (vex_process_error_err eng st blk e h)
  · intro eng st blk h
    rw [ail_process_ok_context eng st blk h]
    have hfr := ailLoop_frame blk.statements (ailInit eng st blk) 0
    exact ⟨hfr.1, hfr.2.1, hfr.2.2.1, hfr.2.2.2⟩
  · intro eng st blk tmps' block' state' arch'
    rfl

/-- C3 witness: a completed call on the empty block returns the end-of-run
context with only stmt_idx and ins_addr overwritten, and calls that stop at
the unimplemented Put (VEX) or Jump (AIL) capability return the end-of-run
context unchanged. -/
theorem claim_C3_witness :
    (vex_process vexFresh ⟨0⟩ (some blockEmpty)).1 =
      { (vexLoop (vexInit vexFresh ⟨0⟩ blockEmpty) blockEmpty.vex.statements 0).1 with
        stmt_idx := Option.none, ins_addr := Option.none } ∧
    (vex_process vexFresh ⟨0⟩ (some blockC3err)).1 =
      (vexLoop (vexInit vexFresh ⟨0⟩ blockC3err) blockC3err.vex.statements 0).1 ∧
    (ail_process ailFresh ⟨0⟩ (some blockC3errAIL)).1 =
      (ailLoop (ailInit ailFresh ⟨0⟩ blockC3errAIL) blockC3errAIL.statements 0).1 :=
  ⟨claim_C3_amended.1 vexFresh ⟨0⟩ blockEmpty rfl,
   (claim_C3_amended.2.2.2.1 vexFresh ⟨0⟩ blockC3err
      (.notImplemented "Please implement the Put handler with your own logic.") rfl).1,
   claim_C3_amended.2.2.2.2.2.2.2 ailFresh ⟨0⟩ blockC3errAIL
      (.notImplemented "Please implement the Jump handler with your own logic.") rfl⟩

end LightEngine
